import Mathlib

/-
Verification of the go-blog content rendering and comment pipeline.

The development shallowly embeds the Go source (src/main.go, src/post.go,
src/util.go): the post metadata record, the date formatter (Post.HumanDate),
the registry loader (getPostList), the markdown render step (Post.Render),
the in-memory comment map of main.go, and the two request handlers
(post view and comment submission). File reads are modelled as a function
from path to optional contents; the gomarkdown conversion is an abstract
function parameter; the check(e) wrapper of util.go is modelled by an
explicit panic outcome. Go string maps become association lists whose read
of an absent key yields the empty list, exactly as a nil slice read from a
Go map behaves at the sites used here.
-/

namespace GoBlog

/-- Comment record (src/post.go): submitter-provided name and content. -/
structure Comment where
  Name : String
  Content : String
deriving DecidableEq

/-- Post metadata record (src/post.go): id, date string as loaded, markdown
filename and title. -/
structure Post where
  Id : String
  Date : String
  Filename : String
  Title : String
deriving DecidableEq

/-- Gregorian leap-year rule, as applied by Go time for day-of-month
validation during time.Parse. -/
def isLeapYear (y : Nat) : Bool :=
  (y % 4 == 0 && y % 100 != 0) || y % 400 == 0

/-- Number of days of month m in year y (months numbered 1 to 12). -/
def daysInMonth (y m : Nat) : Nat :=
  if m == 2 then (if isLeapYear y then 29 else 28)
  else if m == 4 || m == 6 || m == 9 || m == 11 then 30
  else 31

/-- Full English month name, as produced by the January layout token. -/
def monthName : Nat → String
  | 1 => "January"
  | 2 => "February"
  | 3 => "March"
  | 4 => "April"
  | 5 => "May"
  | 6 => "June"
  | 7 => "July"
  | 8 => "August"
  | 9 => "September"
  | 10 => "October"
  | 11 => "November"
  | 12 => "December"
  | _ => ""

/-- Full English weekday name, 0 = Sunday, as produced by the Monday layout
token. -/
def weekdayName : Nat → String
  | 0 => "Sunday"
  | 1 => "Monday"
  | 2 => "Tuesday"
  | 3 => "Wednesday"
  | 4 => "Thursday"
  | 5 => "Friday"
  | 6 => "Saturday"
  | _ => ""

/-- Month term of Sakamoto's day-of-week congruence. -/
def monthOffset : Nat → Nat
  | 1 => 0
  | 2 => 3
  | 3 => 2
  | 4 => 5
  | 5 => 0
  | 6 => 3
  | 7 => 5
  | 8 => 1
  | 9 => 4
  | 10 => 6
  | 11 => 2
  | 12 => 4
  | _ => 0

/-- Day of week of a proleptic Gregorian date, 0 = Sunday (Sakamoto's
method), matching the weekday Go time computes for a parsed date. -/
def weekday (y m d : Nat) : Nat :=
  let yy := if m < 3 then y - 1 else y
  (yy + yy / 4 - yy / 100 + yy / 400 + monthOffset m + d) % 7

/-- Decimal value of an ASCII digit character. -/
def digitVal (ch : Char) : Option Nat :=
  if ch.isDigit then some (ch.toNat - 48) else none

/-- Go time.Parse with the time.DateOnly layout 2006-01-02: exactly four
year digits, a dash, two month digits, a dash, two day digits, with the
month checked against 1..12 and the day against the month length (leap
years included), as Go's parser does before constructing a time value.
Returns (year, month, day); none models a parse error. -/
def parseDateOnly (s : String) : Option (Nat × Nat × Nat) :=
  match s.data with
  | [y1, y2, y3, y4, '-', m1, m2, '-', d1, d2] =>
    match digitVal y1, digitVal y2, digitVal y3, digitVal y4,
          digitVal m1, digitVal m2, digitVal d1, digitVal d2 with
    | some a, some b, some c, some e, some f, some g, some h, some i =>
      let y := ((a * 10 + b) * 10 + c) * 10 + e
      let m := f * 10 + g
      let d := h * 10 + i
      if 1 ≤ m ∧ m ≤ 12 ∧ 1 ≤ d ∧ d ≤ daysInMonth y m then some (y, m, d)
      else none
    | _, _, _, _, _, _, _, _ => none
  | _ => none

/-- Rendering of the day of month under the Go layout token _2: space-padded
to width two, so a single-digit day is preceded by an extra space. -/
def formatDay2 (d : Nat) : String :=
  if d < 10 then " " ++ Nat.repr d else Nat.repr d

/-- Go Format with layout "Monday, January _2" applied to a parsed date:
full weekday name, comma, full month name, space, space-padded day. -/
def goFormatHuman (y m d : Nat) : String :=
  weekdayName (weekday y m d) ++ ", " ++ monthName m ++ " " ++ formatDay2 d

/-- Post.HumanDate (src/post.go lines 88-93): time.Parse(time.DateOnly,
post.Date), check(err) panicking on a malformed date (modelled as none),
then Format with layout "Monday, January _2". -/
def humanDate (s : String) : Option String :=
  (parseDateOnly s).map (fun t => goFormatHuman t.1 t.2.1 t.2.2)

/-- The in-memory comment store of src/main.go line 20: a map from post id
to the ordered slice of comments, embedded as an association list. -/
def CommentLog : Type := List (String × List Comment)

instance : DecidableEq CommentLog := by
  unfold CommentLog
  infer_instance

/-- Reading comments[id] from the Go map: the slice stored under id, or the
nil (empty) slice when the key is absent. -/
def getComments : CommentLog → String → List Comment
  | [], _ => []
  | e :: rest, id => if e.fst = id then e.snd else getComments rest id

/-- Writing comments[id] = cs into the Go map: replaces the binding when the
key is present, otherwise creates the key. -/
def setComments : CommentLog → String → List Comment → CommentLog
  | [], id, cs => [(id, cs)]
  | e :: rest, id, cs =>
    if e.fst = id then (id, cs) :: rest else e :: setComments rest id cs

/-- The append of src/main.go lines 65-68: comments[postId] =
append(comments[postId], c), creating the key when absent. -/
def appendComment (log : CommentLog) (id : String) (c : Comment) : CommentLog :=
  setComments log id (getComments log id ++ [c])

/-- The post lookup loop of src/main.go lines 37-42: scan the loaded list in
order and stop at the first element whose Id equals the path id (exact,
case-sensitive Go string equality). -/
def findPost (posts : List Post) (id : String) : Option Post :=
  posts.find? (fun post => post.Id = id)

/-- getPostList (src/post.go lines 95-104): reads posts/posts.json,
JSON-decodes it into the posts slice and returns it. The file read and the
JSON decode belong to the surrounding collaborators; the embedding receives
the decoded metadata and, exactly as the code does, returns it without any
per-post transformation - in particular no date parsing, no date
reformatting and no duplicate-id check happens at load. -/
def getPostList (decodedMetadata : List Post) : List Post :=
  decodedMetadata

/-- Outcome of the check(e) wrapper of src/util.go on a non-nil error: the
goroutine panics; no response body is produced by the handler. -/
inductive GoPanic where
  | panic
deriving DecidableEq

/-- Post.Render (src/post.go lines 107-122): read posts/<filename> with the
result passed through check (a missing or unreadable file panics), then
parse and render the markdown. The filesystem is a function from path to
optional contents; the gomarkdown conversion is the abstract function md. -/
def postRender (fs : String → Option String) (md : String → String)
    (post : Post) : Except GoPanic String :=
  match fs ("posts/" ++ post.Filename) with
  | none => Except.error GoPanic.panic
  | some contents => Except.ok (md contents)

/-- Observable outcome of a successfully executed view handler: the HTTP
status written, the page template executed, the markdown fragment embedded
(none when no markdown rendering ran), the comment list fetched from the
comment map (none when no lookup ran) and the formatted date shown (none
when the date formatter ran on no post). -/
structure Response where
  status : Nat
  page : String
  markdownFragment : Option String
  commentsShown : Option (List Comment)
  humanDateShown : Option String
deriving DecidableEq

/-- The GET /posts/{id} handler of src/main.go lines 33-57. The loop scans
the registry for the first post whose Id equals the path id. On a miss it
writes status 404 and executes the 404 template with nil data: no markdown
rendering and no comment map lookup occur. On a hit it executes the post
template with {Post, Comments: comments[postId]}; executing that template
invokes post.Render() and post.HumanDate() (the template assets live
outside src/; per the spec's data flow the post view shows the rendered
markdown fragment and the formatted date), and a failure of either -
missing source file or malformed date - hits check and panics the handler
instead of producing a page. postViewHit is the hit branch; postView is the
whole handler. -/
def postViewHit (comments : CommentLog) (fs : String → Option String)
    (md : String → String) (postId : String) (post : Post) :
    Except GoPanic Response :=
  match postRender fs md post, humanDate post.Date with
  | Except.ok frag, some hd =>
    Except.ok { status := 200, page := "post", markdownFragment := some frag,
                commentsShown := some (getComments comments postId),
                humanDateShown := some hd }
  | _, _ => Except.error GoPanic.panic

def postView (posts : List Post) (comments : CommentLog)
    (fs : String → Option String) (md : String → String)
    (postId : String) : Except GoPanic Response :=
  match findPost posts postId with
  | none =>
    Except.ok { status := 404, page := "404", markdownFragment := none,
                commentsShown := none, humanDateShown := none }
  | some post => postViewHit comments fs md postId post

/-- Observable outcome of the comment submission handler: the comment map
after the handler ran, and the redirect it issued. -/
structure SubmitResult where
  newComments : CommentLog
  redirectLocation : String
  status : Nat
deriving DecidableEq

/-- The POST /posts/\x7bid\x7d/comment handler of src/main.go lines 59-72: read
the path id and the form fields name and message, unconditionally execute
comments[postId] = append(comments[postId], Comment{name, message}) -
creating the key when absent, with no lookup against the post registry -
and redirect with 303 See Other to /posts/<id>. -/
def submitComment (comments : CommentLog) (postId name message : String) :
    SubmitResult :=
  { newComments := appendComment comments postId ⟨name, message⟩,
    redirectLocation := "/posts/" ++ postId,
    status := 303 }

/-- One step of a task performing the unsynchronized append of src/main.go
lines 65-68 against the shared plain map of line 20: the statement
comments[postId] = append(comments[postId], c) first reads the slice held
under the key, then writes back the extended slice. Under concurrent
execution the two halves of distinct tasks may interleave. -/
inductive RaceEvent where
  | read (t : Nat)
  | write (t : Nat)

/-- Shared map plus, per task, the slice snapshot already read (none before
the task's read). -/
structure RaceState where
  log : CommentLog
  regs : List (Option (List Comment))

/-- Effect of one scheduled step: a read stores the current slice under the
key into the task's register; a write stores back that snapshot extended by
the task's comment. A write scheduled before its task's read is a no-op. -/
def raceStep (postId : String) (cmts : Nat → Comment) (s : RaceState) :
    RaceEvent → RaceState
  | RaceEvent.read t =>
    { s with regs := s.regs.set t (some (getComments s.log postId)) }
  | RaceEvent.write t =>
    match s.regs.getD t none with
    | none => s
    | some snapshot =>
      { log := setComments s.log postId (snapshot ++ [cmts t]),
        regs := s.regs.set t none }

/-- Run a schedule of interleaved read and write steps of nTasks tasks, each
appending its own comment to the same post id, starting from the empty
comment map. -/
def runRace (postId : String) (cmts : Nat → Comment) (nTasks : Nat)
    (sched : List RaceEvent) : RaceState :=
  sched.foldl (raceStep postId cmts) { log := [], regs := List.replicate nTasks none }

/-- Modelled from the spec: the Template Composer "must escape all context
values by default (HTML-entity-encode)". The template assets and Go's
html/template engine are outside src/; this is the text-context entity
encoding html/template applies to an interpolated string value. -/
def escapeChar (ch : Char) : String :=
  if ch = '<' then "&lt;"
  else if ch = '>' then "&gt;"
  else if ch = '&' then "&amp;"
  else if ch = Char.ofNat 39 then "&#39;"
  else if ch = Char.ofNat 34 then "&#34;"
  else String.singleton ch

/-- Modelled from the spec: entity escaping of a whole plain-text context
value, character by character. -/
def escapeHTML (s : String) : String :=
  s.data.foldr (fun ch acc => escapeChar ch ++ acc) ""

/-- Modelled from the spec: the comment list block of the post page - each
comment's name and content enter the document only through the escaper. -/
def composeComment (c : Comment) : String :=
  "<li><b>" ++ escapeHTML c.Name ++ "</b>: " ++ escapeHTML c.Content ++ "</li>"

/-- Modelled from the spec: concatenation of the rendered comment items in
append (display) order. -/
def composeComments : List Comment → String
  | [] => ""
  | c :: rest => composeComment c ++ composeComments rest

/-- Modelled from the spec: the part of the composed post document that
precedes the markdown fragment - base layout head plus title and formatted
date, both escaped as plain-text context values. -/
def pageHead (title hd : String) : String :=
  "<html><head><title>" ++ escapeHTML title ++ "</title></head><body><h1>" ++
  escapeHTML title ++ "</h1><p>" ++ escapeHTML hd ++ "</p><article>"

/-- Modelled from the spec: the part of the composed post document that
follows the markdown fragment - the comment list and the closing layout. -/
def pageTail (cs : List Comment) : String :=
  "</article><ul>" ++ composeComments cs ++ "</ul></body></html>"

/-- Modelled from the spec: compose(base, post, data) - the full post
document. The markdown fragment is a template.HTML value and is embedded
verbatim between head and tail; every other context value is escaped. -/
def composePost (title hd frag : String) (cs : List Comment) : String :=
  pageHead title hd ++ frag ++ pageTail cs

/-- Substring occurrence: sub occurs contiguously inside s. -/
def occursIn (sub s : String) : Prop :=
  ∃ a b : String, s = a ++ sub ++ b

/-- The sample post of the repository (posts/intro-to-go.md), with a valid
date whose day of month is a single digit. -/
def introPost : Post :=
  ⟨"intro-to-go", "2024-05-06", "intro-to-go.md", "Intro to Go"⟩

/-- A metadata entry whose date string does not match the YYYY-MM-DD
grammar. -/
def badDatePost : Post :=
  ⟨"p1", "not-a-date", "p1.md", "Post 1"⟩

/-- First of two metadata entries sharing the id dup. -/
def dupA : Post := ⟨"dup", "2024-01-01", "a.md", "A"⟩

/-- Second of two metadata entries sharing the id dup. -/
def dupB : Post := ⟨"dup", "2024-02-02", "b.md", "B"⟩

/-- Comment supplied by concurrent task t in the race schedules. -/
def raceComment (t : Nat) : Comment := ⟨"user" ++ Nat.repr t, "hello"⟩

/- Helper lemmas about the comment map. -/

theorem getComments_setComments_self (log : CommentLog) (id : String)
    (cs : List Comment) : getComments (setComments log id cs) id = cs := by
  induction log with
  | nil => simp [setComments, getComments]
  | cons e rest ih =>
    by_cases h : e.fst = id
    · simp [setComments, h, getComments]
    · simp [setComments, h, getComments, ih]

theorem getComments_setComments_ne (log : CommentLog) (id id2 : String)
    (cs : List Comment) (h : id ≠ id2) :
    getComments (setComments log id cs) id2 = getComments log id2 := by
  induction log with
  | nil => simp [setComments, getComments, h]
  | cons e rest ih =>
    by_cases he : e.fst = id
    · have hne : e.fst ≠ id2 := by rw [he]; exact h
      simp [setComments, he, getComments, h, hne]
    · by_cases he2 : e.fst = id2
      · have hrev : ¬(id2 = id) := fun hh => h hh.symm
        simp [setComments, he, getComments, he2, hrev]
      · simp [setComments, he, getComments, he2, ih]

theorem getComments_appendComment_self (log : CommentLog) (id : String)
    (c : Comment) :
    getComments (appendComment log id c) id = getComments log id ++ [c] := by
  unfold appendComment
  exact getComments_setComments_self log id _

theorem getComments_appendComment_ne (log : CommentLog) (id id2 : String)
    (c : Comment) (h : id ≠ id2) :
    getComments (appendComment log id c) id2 = getComments log id2 := by
  unfold appendComment
  exact getComments_setComments_ne log id id2 _ h

/- Helper lemmas about registry lookup. -/

theorem findPost_eq_none (posts : List Post) (id : String)
    (h : ∀ post ∈ posts, post.Id ≠ id) : findPost posts id = none := by
  unfold findPost
  rw [List.find?_eq_none]
  intro x hx
  simp [h x hx]

theorem findPost_first (pre : List Post) (p : Post) (rest : List Post)
    (h : ∀ q ∈ pre, q.Id ≠ p.Id) :
    findPost (pre ++ p :: rest) p.Id = some p := by
  unfold findPost
  rw [List.find?_append]
  have hpre : List.find? (fun post => post.Id = p.Id) pre = none := by
    rw [List.find?_eq_none]
    intro x hx
    simp [h x hx]
  rw [hpre]
  simp [List.find?]

/- Helper lemmas about entity escaping. -/

theorem escapeChar_not_lt (ch : Char) : '<' ∉ (escapeChar ch).data := by
  unfold escapeChar
  split_ifs with h1 h2 h3 h4 h5
  · decide
  · decide
  · decide
  · decide
  · decide
  · intro hmem
    have : '<' = ch := by
      simpa [String.singleton] using hmem
    exact h1 this.symm

theorem escapeHTML_not_lt (s : String) : '<' ∉ (escapeHTML s).data := by
  unfold escapeHTML
  induction s.data with
  | nil => simp
  | cons ch rest ih =>
    simp only [List.foldr_cons, String.data_append, List.mem_append]
    rintro (hmem | hmem)
    · exact escapeChar_not_lt ch hmem
    · exact ih hmem

theorem escapeHTML_count_lt (s : String) : (escapeHTML s).data.count '<' = 0 :=
  List.count_eq_zero.mpr (escapeHTML_not_lt s)

/- Helper lemmas about substring occurrence. -/

theorem occursIn_app_left (sub a b : String) (h : occursIn sub a) :
    occursIn sub (a ++ b) := by
  obtain ⟨x, y, rfl⟩ := h
  exact ⟨x, y ++ b, by simp [String.append_assoc]⟩

theorem occursIn_app_right (sub a b : String) (h : occursIn sub b) :
    occursIn sub (a ++ b) := by
  obtain ⟨x, y, rfl⟩ := h
  exact ⟨a ++ x, y, by simp [String.append_assoc]⟩

theorem occursIn_middle (a sub b : String) : occursIn sub (a ++ sub ++ b) :=
  ⟨a, b, rfl⟩

/- Helper lemmas about the composed post document. -/

theorem count_lt_composeComment (c : Comment) :
    (composeComment c).data.count '<' = 4 := by
  simp [composeComment, String.data_append, List.count_append, escapeHTML_count_lt]

theorem count_lt_composeComments (cs : List Comment) :
    (composeComments cs).data.count '<' = 4 * cs.length := by
  induction cs with
  | nil => decide
  | cons c rest ih =>
    simp [composeComments, String.data_append, List.count_append,
          count_lt_composeComment, ih, Nat.mul_add, Nat.mul_succ]
    omega

theorem count_lt_pageHead (title hd : String) :
    (pageHead title hd).data.count '<' = 11 := by
  simp [pageHead, String.data_append, List.count_append, escapeHTML_count_lt]

theorem count_lt_pageTail (cs : List Comment) :
    (pageTail cs).data.count '<' = 4 * cs.length + 5 := by
  simp [pageTail, String.data_append, List.count_append, count_lt_composeComments]

theorem count_lt_composePost (title hd frag : String) (cs : List Comment) :
    (composePost title hd frag cs).data.count '<' =
      frag.data.count '<' + (4 * cs.length + 16) := by
  simp [composePost, String.data_append, List.count_append,
        count_lt_pageHead, count_lt_pageTail]
  omega

theorem comment_fields_occur (c : Comment) (cs : List Comment) (h : c ∈ cs) :
    occursIn (escapeHTML c.Name) (composeComments cs) ∧
    occursIn (escapeHTML c.Content) (composeComments cs) := by
  induction cs with
  | nil => cases h
  | cons c0 rest ih =>
    rcases List.mem_cons.mp h with rfl | hmem
    · constructor
      · refine occursIn_app_left _ _ _ ?_
        exact ⟨"<li><b>", "</b>: " ++ escapeHTML c.Content ++ "</li>",
          by simp [composeComment, String.append_assoc]⟩
      · refine occursIn_app_left _ _ _ ?_
        exact ⟨"<li><b>" ++ escapeHTML c.Name ++ "</b>: ", "</li>",
          by simp [composeComment, String.append_assoc]⟩
    · exact ⟨occursIn_app_right _ _ _ (ih hmem).1,
             occursIn_app_right _ _ _ (ih hmem).2⟩

theorem occursIn_composePost_of_comments (x : String) (title hd frag : String)
    (cs : List Comment) (h : occursIn x (composeComments cs)) :
    occursIn x (composePost title hd frag cs) := by
  unfold composePost pageTail
  refine occursIn_app_right _ _ _ ?_
  refine occursIn_app_left _ _ _ ?_
  exact occursIn_app_right _ _ _ h

/-- C1: the claim requires every interleaving of N concurrent appends to the
same post id to leave exactly N entries. The store is the plain map of
src/main.go line 20 mutated without synchronization at lines 65-68, so the
read and write halves of two appends can interleave as read-read-write-write
and the first write is lost: that schedule leaves one entry, not two. The
same two appends serialized leave two entries, showing the loss is caused by
the interleaving alone. -/
theorem C1_lost_update :
    (getComments (runRace "p1" raceComment 2
      [RaceEvent.read 0, RaceEvent.read 1,
       RaceEvent.write 0, RaceEvent.write 1]).log "p1").length = 1 ∧
    (getComments (runRace "p1" raceComment 2
      [RaceEvent.read 0, RaceEvent.write 0,
       RaceEvent.read 1, RaceEvent.write 1]).log "p1").length = 2 := by
  constructor
  · decide
  · decide

/-- C2 counterexample: the id ghost is absent from the registry, yet the
submission handler accepts the comment, creates the key ghost in the comment
map and answers with a 303 redirect - it does not reject the submission and
does not leave the log unchanged. -/
theorem C2_counterexample :
    findPost [introPost] "ghost" = none ∧
    (submitComment [] "ghost" "A" "hi").newComments =
      [("ghost", [⟨"A", "hi"⟩])] ∧
    (submitComment [] "ghost" "A" "hi").status = 303 := by
  refine ⟨?_, rfl, rfl⟩
  decide

/-- C2 amended: the comment submission handler performs no registry
validation at all: for every id absent from the loaded registry it still
appends the comment to the log under that id - creating the key - and
issues a 303 redirect back to the post view. -/
theorem C2_no_validation (posts : List Post) (log : CommentLog)
    (postId name message : String) (h : ∀ post ∈ posts, post.Id ≠ postId) :
    findPost posts postId = none ∧
    getComments (submitComment log postId name message).newComments postId =
      getComments log postId ++ [⟨name, message⟩] ∧
    (submitComment log postId name message).redirectLocation =
      "/posts/" ++ postId ∧
    (submitComment log postId name message).status = 303 := by
  refine ⟨findPost_eq_none _ _ h, ?_, rfl, rfl⟩
  unfold submitComment appendComment
  exact getComments_setComments_self log postId _

/-- C2 witness: the amended behaviour at the concrete unknown id ghost. -/
theorem C2_no_validation_witness :
    findPost [introPost] "ghost" = none ∧
    getComments (submitComment [] "ghost" "A" "hi").newComments "ghost" =
      getComments [] "ghost" ++ [⟨"A", "hi"⟩] ∧
    (submitComment [] "ghost" "A" "hi").redirectLocation = "/posts/" ++ "ghost" ∧
    (submitComment [] "ghost" "A" "hi").status = 303 :=
  C2_no_validation [introPost] [] "ghost" "A" "hi" (by decide)

/-- C3 counterexample: the Go layout token _2 space-pads the day of month to
width two, so the date 2025-01-06 - a Monday with a single-digit day -
renders with two spaces between the month name and the digit, not one. -/
theorem C3_counterexample :
    humanDate "2025-01-06" = some "Monday, January  6" ∧
    humanDate "2025-01-06" ≠ some "Monday, January 6" := by
  constructor
  · decide
  · decide

/-- C3 amended: the formatter renders a parsed date as
Weekday, Month Day with the day of month space-padded to width two: days of
ten or more render as their plain digits, single-digit days receive a
leading space so that two consecutive spaces separate the month name from
the digit; formatting 2025-10-20 yields Monday, October 20. -/
theorem C3_space_padded_day (s : String) (y m d : Nat)
    (h : parseDateOnly s = some (y, m, d)) :
    humanDate s = some (goFormatHuman y m d) ∧
    (10 ≤ d → goFormatHuman y m d =
      weekdayName (weekday y m d) ++ ", " ++ monthName m ++ " " ++ Nat.repr d) ∧
    (d < 10 → goFormatHuman y m d =
      weekdayName (weekday y m d) ++ ", " ++ monthName m ++ " " ++
        (" " ++ Nat.repr d) ∧
      occursIn "  " (goFormatHuman y m d)) ∧
    humanDate "2025-10-20" = some "Monday, October 20" := by
  refine ⟨by simp [humanDate, h], ?_, ?_, by decide⟩
  · intro hd10
    simp [goFormatHuman, formatDay2, Nat.not_lt.mpr hd10]
  · intro hd10
    refine ⟨by simp [goFormatHuman, formatDay2, hd10], ?_⟩
    refine ⟨weekdayName (weekday y m d) ++ ", " ++ monthName m, Nat.repr d, ?_⟩
    have htail : ∀ x : String, ("  " : String) ++ x = " " ++ (" " ++ x) := by
      intro x
      rw [← String.append_assoc]
      rfl
    simp [goFormatHuman, formatDay2, hd10, String.append_assoc, htail]

/-- C3 witness: the amended behaviour at the concrete date 2025-01-06. -/
theorem C3_space_padded_day_witness :
    humanDate "2025-01-06" = some (goFormatHuman 2025 1 6) ∧
    occursIn "  " (goFormatHuman 2025 1 6) := by
  have h := C3_space_padded_day "2025-01-06" 2025 1 6 (by decide)
  exact ⟨h.1, (h.2.2.1 (by decide)).2⟩

/-- C4 counterexample: a metadata entry whose date string is not-a-date
passes registry load untouched - getPostList applies no formatting and
raises no error - and the failure surfaces only at request time: the
formatter rejects the string and viewing the post panics the handler. -/
theorem C4_counterexample :
    getPostList [badDatePost] = [badDatePost] ∧
    humanDate badDatePost.Date = none ∧
    postView (getPostList [badDatePost]) [] (fun _ => some "body")
      (fun s => s) "p1" = Except.error GoPanic.panic := by
  refine ⟨rfl, by decide, rfl⟩

/-- C4 amended: date formatting is not applied at registry load:
getPostList returns the decoded metadata unchanged, and a date string the
formatter rejects survives load and panics the post view handler at request
time, when the template invokes Post.HumanDate. -/
theorem C4_formatting_deferred (metadata : List Post) (post : Post)
    (hfind : findPost metadata post.Id = some post)
    (hbad : parseDateOnly post.Date = none)
    (comments : CommentLog) (fs : String → Option String)
    (md : String → String) :
    getPostList metadata = metadata ∧
    postView (getPostList metadata) comments fs md post.Id =
      Except.error GoPanic.panic := by
  refine ⟨rfl, ?_⟩
  have hhd : humanDate post.Date = none := by simp [humanDate, hbad]
  unfold postView getPostList
  rw [hfind]
  show postViewHit comments fs md post.Id post = Except.error GoPanic.panic
  unfold postViewHit
  rw [hhd]
  cases postRender fs md post <;> rfl

/-- C4 witness: the amended behaviour at the concrete malformed date. -/
theorem C4_formatting_deferred_witness :
    getPostList [badDatePost] = [badDatePost] ∧
    postView (getPostList [badDatePost]) [] (fun _ => some "body")
      (fun s => s) badDatePost.Id = Except.error GoPanic.panic :=
  C4_formatting_deferred [badDatePost] badDatePost (by decide) (by decide)
    [] (fun _ => some "body") (fun s => s)

/-- C5: in the composed post document every comment name and content enters
only through the entity escaper - the markup-character count of the page
equals that of the markdown fragment plus the fixed static template markup,
independent of the comment text - while the markdown fragment itself is
embedded verbatim as a contiguous substring; escaping maps the string
script-tag to its entity form, and an escaped value never contains a raw
markup character. -/
theorem C5_escaping (title hd frag : String) (cs : List Comment) :
    (composePost title hd frag cs).data.count '<' =
      frag.data.count '<' + (4 * cs.length + 16) ∧
    occursIn frag (composePost title hd frag cs) ∧
    (∀ c ∈ cs,
      occursIn (escapeHTML c.Name) (composePost title hd frag cs) ∧
      occursIn (escapeHTML c.Content) (composePost title hd frag cs)) ∧
    escapeHTML "<script>" = "&lt;script&gt;" ∧
    (∀ s : String, '<' ∉ (escapeHTML s).data) := by
  refine ⟨count_lt_composePost title hd frag cs, ?_, ?_, by decide,
          escapeHTML_not_lt⟩
  · unfold composePost
    exact occursIn_middle _ _ _
  · intro c hc
    have h := comment_fields_occur c cs hc
    exact ⟨occursIn_composePost_of_comments _ title hd frag cs h.1,
           occursIn_composePost_of_comments _ title hd frag cs h.2⟩

/-- C5 witness: the escaped form of a script tag posted as comment content
occurs in the concrete composed page, whose markup-character count is that
of its fragment plus the static template markup. -/
theorem C5_escaping_witness :
    occursIn (escapeHTML "<script>")
      (composePost "T" "Monday, October 20" "<p>body</p>"
        [⟨"A", "<script>"⟩]) ∧
    (composePost "T" "Monday, October 20" "<p>body</p>"
        [⟨"A", "<script>"⟩]).data.count '<' =
      ("<p>body</p>" : String).data.count '<' + 20 := by
  have h := C5_escaping "T" "Monday, October 20" "<p>body</p>"
    [⟨"A", "<script>"⟩]
  refine ⟨(h.2.2.1 ⟨"A", "<script>"⟩ (by simp)).2, ?_⟩
  have h1 := h.1
  simpa using h1

/-- C6: a post present in the registry whose markdown source file is absent
does not produce a SourceNotFoundError fallback page: the view handler hits
check on the failed file read and panics, producing no response at all. The
post's date is valid, so the panic is attributable to the missing file. -/
theorem C6_missing_source_panics :
    humanDate introPost.Date = some "Monday, May  6" ∧
    postView [introPost] [] (fun _ => none) (fun s => s) "intro-to-go" =
      Except.error GoPanic.panic := by
  exact ⟨by decide, rfl⟩

/-- C7 counterexample: a metadata document with two distinct entries sharing
the id dup loads without any MetadataError - both entries are kept - and
lookup silently resolves to the first match. -/
theorem C7_counterexample :
    getPostList [dupA, dupB] = [dupA, dupB] ∧
    findPost [dupA, dupB] "dup" = some dupA ∧
    dupA.Id = dupB.Id ∧ dupA ≠ dupB := by
  refine ⟨rfl, ?_, rfl, by decide⟩
  decide

/-- C7 amended: registry loading performs no duplicate-id check - the
decoded metadata is returned in full - and lookup deterministically returns
the first entry in declaration order whose id matches, regardless of later
entries with the same id. -/
theorem C7_first_match_wins (pre : List Post) (p : Post) (rest : List Post)
    (h : ∀ q ∈ pre, q.Id ≠ p.Id) :
    getPostList (pre ++ p :: rest) = pre ++ p :: rest ∧
    findPost (pre ++ p :: rest) p.Id = some p :=
  ⟨rfl, findPost_first pre p rest h⟩

/-- C7 witness: the amended behaviour on a concrete document holding a
duplicated id. -/
theorem C7_first_match_wins_witness :
    getPostList ([introPost] ++ dupA :: [dupB]) = [introPost] ++ dupA :: [dupB] ∧
    findPost ([introPost] ++ dupA :: [dupB]) dupA.Id = some dupA :=
  C7_first_match_wins [introPost] dupA [dupB] (by decide)

/-- C8: two appends to the same post id starting from the empty comment map
are both retained in append order, and reading any other id - as well as
any id of the empty map - yields the empty sequence, never an error. -/
theorem C8_append_then_get (p q : String) (hq : q ≠ p) :
    getComments
      (appendComment (appendComment [] p ⟨"A", "hi"⟩) p ⟨"B", "yo"⟩) p =
      [⟨"A", "hi"⟩, ⟨"B", "yo"⟩] ∧
    getComments
      (appendComment (appendComment [] p ⟨"A", "hi"⟩) p ⟨"B", "yo"⟩) q = [] ∧
    getComments [] q = [] := by
  refine ⟨?_, ?_, rfl⟩
  · rw [getComments_appendComment_self, getComments_appendComment_self]
    rfl
  · rw [getComments_appendComment_ne _ _ _ _ (Ne.symm hq),
        getComments_appendComment_ne _ _ _ _ (Ne.symm hq)]
    rfl

/-- C8 witness: the append and read behaviour at the concrete ids p1 and
unknown. -/
theorem C8_append_then_get_witness :
    getComments
      (appendComment (appendComment [] "p1" ⟨"A", "hi"⟩) "p1" ⟨"B", "yo"⟩)
      "p1" = [⟨"A", "hi"⟩, ⟨"B", "yo"⟩] ∧
    getComments
      (appendComment (appendComment [] "p1" ⟨"A", "hi"⟩) "p1" ⟨"B", "yo"⟩)
      "unknown" = [] ∧
    getComments [] "unknown" = [] :=
  C8_append_then_get "p1" "unknown" (by decide)

/-- C9: a path id matching no loaded post under exact case-sensitive string
equality makes the view handler answer 404 with the 404 template, with no
markdown rendering, no comment map lookup and no date formatting for that
request. -/
theorem C9_unknown_id_404 (posts : List Post) (comments : CommentLog)
    (fs : String → Option String) (md : String → String) (postId : String)
    (h : ∀ post ∈ posts, post.Id ≠ postId) :
    postView posts comments fs md postId =
      Except.ok { status := 404, page := "404", markdownFragment := none,
                  commentsShown := none, humanDateShown := none } := by
  unfold postView
  rw [findPost_eq_none posts postId h]

/-- C9 witness: the 404 response at the concrete unknown id ghost. -/
theorem C9_unknown_id_404_witness :
    postView [introPost] [] (fun _ => some "body") (fun s => s) "ghost" =
      Except.ok { status := 404, page := "404", markdownFragment := none,
                  commentsShown := none, humanDateShown := none } :=
  C9_unknown_id_404 [introPost] [] (fun _ => some "body") (fun s => s)
    "ghost" (by decide)

/-- C10: appending a comment under one post id leaves the sequence read
under every other id of the comment map unchanged. -/
theorem C10_append_frame (log : CommentLog) (p q : String) (c : Comment)
    (h : p ≠ q) :
    getComments (appendComment log p c) q = getComments log q :=
  getComments_appendComment_ne log p q c h

/-- C10 witness: the frame property at two concrete distinct ids. -/
theorem C10_append_frame_witness :
    getComments
      (appendComment [("q1", [⟨"B", "yo"⟩])] "p1" ⟨"A", "hi"⟩) "q1" =
      getComments [("q1", [⟨"B", "yo"⟩])] "q1" :=
  C10_append_frame [("q1", [⟨"B", "yo"⟩])] "p1" "q1" ⟨"A", "hi"⟩ (by decide)

end GoBlog
